import Mathlib

/-!
Verification of the yt_downloader repository (Django app for downloading
videos with temporary, expiring share links).

The Python sources under `downloader/` are shallowly embedded:

* `downloader/models.py`   — `TemporaryDownload` with its `save`/`is_expired`;
* `downloader/utils.py`    — `cleanup_expired_downloads`;
* `downloader/management/commands/cleanup_downloads.py` — the operator sweep;
* `downloader/views.py`    — URL validation/extraction, the format list in
  `home`, the parameter check and download-retry loop in `download_video`,
  and the retrieval views `convert_view` / `download_from_link`.

Timestamps are natural numbers (seconds); `timedelta(hours=1)` is `3600`.
The filesystem is the set of existing paths, as a list; `os.remove` calls
that raise are modelled by an explicit error set `errs`, and their
`try/except` wrappers swallow the error, leaving the file in place.
Django's per-call `timezone.now()` reads are explicit `Time` parameters:
a view that reads the clock twice receives two instants `t1 ≤ t2`.
-/

namespace YtDownloader

/-- Time instants and durations, in seconds. -/
abbrev Time := Nat

/-- `downloader/models.py`: the persisted `TemporaryDownload` row.  The
UUID primary key is modelled as an opaque natural number. -/
structure TemporaryDownload where
  id : Nat
  video_url : String
  video_title : String
  created_at : Time
  file_path : String
  format_type : String
  expires_at : Time
deriving DecidableEq

/-- Creation-time field values for a `TemporaryDownload` before `save`
runs: `expires_at` may be unset (Python `None`, the only falsy value a
`DateTimeField` can hold). -/
structure DownloadMeta where
  id : Nat
  video_url : String
  video_title : String
  file_path : String
  format_type : String
  expires_at : Option Time
deriving DecidableEq

/-- `models.py` lines 16-19: `save` defaults `expires_at` to
`timezone.now() + timedelta(hours=1)` when unset; `created_at` is set by
`auto_now_add` at the insert. -/
def TemporaryDownload.save (now : Time) (m : DownloadMeta) : TemporaryDownload :=
  { id := m.id
    video_url := m.video_url
    video_title := m.video_title
    created_at := now
    file_path := m.file_path
    format_type := m.format_type
    expires_at :=
      match m.expires_at with
      | none => now + 3600
      | some e => e }

/-- `models.py` lines 21-22: `is_expired` is `timezone.now() > self.expires_at`. -/
def TemporaryDownload.is_expired (d : TemporaryDownload) (now : Time) : Bool :=
  now > d.expires_at

/-- The filesystem: the list of existing file paths. -/
abbrev FS := List String

/-- `os.path.exists`. -/
def osPathExists (fs : FS) (p : String) : Bool :=
  decide (p ∈ fs)

/-- `os.remove` wrapped in `try/except`: removal of a path in the error
set raises, the handler swallows the error and the file survives;
otherwise the file ceases to exist. -/
def osRemoveSwallow (errs : List String) (fs : FS) (p : String) : FS :=
  if p ∈ errs then fs else fs.filter (fun q => q ≠ p)

/-- The queryset `TemporaryDownload.objects.filter(expires_at__lte=now)`. -/
def expiredSet (now : Time) (store : List TemporaryDownload) : List TemporaryDownload :=
  store.filter (fun d => d.expires_at ≤ now)

/-- The file-deletion loop shared by `utils.cleanup_expired_downloads` and
the management command: for each expired record, if its file exists,
remove it (errors swallowed / logged). -/
def removeExpiredFiles (errs : List String) (expired : List TemporaryDownload) (fs : FS) : FS :=
  expired.foldl
    (fun acc d => if osPathExists acc d.file_path then osRemoveSwallow errs acc d.file_path else acc)
    fs

/-- `downloader/utils.py` lines 20-29, `cleanup_expired_downloads`:
select the records with `expires_at <= now`, best-effort delete each
one's file, then `expired.delete()` removes exactly those records. -/
def cleanup_expired_downloads (now : Time) (errs : List String)
    (store : List TemporaryDownload) (fs : FS) : List TemporaryDownload × FS :=
  let expired := expiredSet now store
  (store.filter (fun d => ¬ d.expires_at ≤ now), removeExpiredFiles errs expired fs)

/-- `downloader/management/commands/cleanup_downloads.py` lines 10-22,
`Command.handle`: same sweep, but it first takes `expired.count()` and
reports it after the deletions.  The returned number is the count it
writes to stdout. -/
def Command.handle (now : Time) (errs : List String)
    (store : List TemporaryDownload) (fs : FS) : Nat × List TemporaryDownload × FS :=
  let expired := expiredSet now store
  let count := expired.length
  (count, store.filter (fun d => ¬ d.expires_at ≤ now), removeExpiredFiles errs expired fs)

/-- Outcome of `download_from_link` (`views.py` lines 396-419).  The two
`Http404` raises are distinguished by their provenance: `notFound` is
`get_object_or_404` failing, `expired` is "This download link has expired",
`fileMissing` is "File not found"; `served` is the `FileResponse`. -/
inductive RetrieveResult where
  | notFound
  | expired
  | fileMissing
  | served (content_type : String) (file_path : String)
deriving DecidableEq

/-- `views.py` lines 396-419, `download_from_link`: opportunistic sweep
(clock read `t1` inside `cleanup_expired_downloads`), `get_object_or_404`
lookup by primary key, `is_expired` check (clock read `t2`) with
single-record reclaim (file first, best effort, then record), missing-file
reclaim, else serve the file.  Returns the response together with the
store and filesystem left behind. -/
def download_from_link (t1 t2 : Time) (errs : List String)
    (store : List TemporaryDownload) (fs : FS) (download_id : Nat) :
    RetrieveResult × List TemporaryDownload × FS :=
  let s1 := (cleanup_expired_downloads t1 errs store fs).1
  let f1 := (cleanup_expired_downloads t1 errs store fs).2
  match s1.find? (fun d => d.id == download_id) with
  | none => (.notFound, s1, f1)
  | some d =>
    if d.is_expired t2 then
      let f2 := if osPathExists f1 d.file_path then osRemoveSwallow errs f1 d.file_path else f1
      (.expired, s1.filter (fun x => x.id ≠ download_id), f2)
    else if osPathExists f1 d.file_path = false then
      (.fileMissing, s1.filter (fun x => x.id ≠ download_id), f1)
    else
      (.served d.format_type d.file_path, s1, f1)

/-- Outcome of `convert_view` (`views.py` lines 370-394); `page` is the
rendered convert page carrying the title and `expires_in = expires_at - now`. -/
inductive ConvertResult where
  | notFound
  | expired
  | fileMissing
  | page (title : String) (expires_in : Int)
deriving DecidableEq

/-- `views.py` lines 370-394, `convert_view`: identical sweep / lookup /
expiry / missing-file logic to `download_from_link`, but the success path
renders a page instead of streaming the file. -/
def convert_view (t1 t2 : Time) (errs : List String)
    (store : List TemporaryDownload) (fs : FS) (download_id : Nat) :
    ConvertResult × List TemporaryDownload × FS :=
  let s1 := (cleanup_expired_downloads t1 errs store fs).1
  let f1 := (cleanup_expired_downloads t1 errs store fs).2
  match s1.find? (fun d => d.id == download_id) with
  | none => (.notFound, s1, f1)
  | some d =>
    if d.is_expired t2 then
      let f2 := if osPathExists f1 d.file_path then osRemoveSwallow errs f1 d.file_path else f1
      (.expired, s1.filter (fun x => x.id ≠ download_id), f2)
    else if osPathExists f1 d.file_path = false then
      (.fileMissing, s1.filter (fun x => x.id ≠ download_id), f1)
    else
      (.page d.video_title ((d.expires_at : Int) - (t2 : Int)), s1, f1)

/-- An observable state for the deletion-ordering analysis: the durable
store together with the filesystem, as a new request would see them. -/
abbrev ObsState := List TemporaryDownload × FS

/-- The successive observable states of the expired-branch reclaim in
`download_from_link` / `convert_view` (`views.py` lines 400-407): the
state at branch entry, the state after the `os.remove` block, and the
state after `download.delete()`. -/
def expiredReclaimTrace (errs : List String) (store : List TemporaryDownload)
    (fs : FS) (d : TemporaryDownload) : List ObsState :=
  let f2 := if osPathExists fs d.file_path then osRemoveSwallow errs fs d.file_path else fs
  [(store, fs), (store, f2), (store.filter (fun x => x.id ≠ d.id), f2)]

/-- The successive observable states of `cleanup_expired_downloads`
(`utils.py` lines 20-29): the initial state, one state after each
iteration of the file-removal loop (the store untouched), and the final
state after `expired.delete()`. -/
def cleanupTrace (now : Time) (errs : List String)
    (store : List TemporaryDownload) (fs : FS) : List ObsState :=
  let expired := expiredSet now store
  let fsStates := expired.scanl
    (fun acc d => if osPathExists acc d.file_path then osRemoveSwallow errs acc d.file_path else acc) fs
  (fsStates.map (fun f => (store, f))) ++
    [(store.filter (fun d => ¬ d.expires_at ≤ now), removeExpiredFiles errs expired fs)]

/-- In an observable state, the artifact with this id is gone from the
durable store. -/
def recordGone (did : Nat) (st : ObsState) : Bool :=
  st.1.all (fun x => x.id ≠ did)

/-- In an observable state, this backing file is gone from disk. -/
def fileGone (p : String) (st : ObsState) : Bool :=
  decide (p ∉ st.2)

/-- The liveness invariant of the spec, read in an observable state: some
record with this id is present, not expired at `now`, and its file exists. -/
def liveInState (now : Time) (did : Nat) (st : ObsState) : Prop :=
  ∃ x ∈ st.1, x.id = did ∧ x.is_expired now = false ∧ x.file_path ∈ st.2

/-! ### The download retry loop of `download_video` (`views.py` lines 278-318)

One iteration of the loop runs `ydl.download`, then checks the predicted
output path.  We abstract what a single attempt does to the predicted
path: the upstream call may raise (`yt_dlp.utils.DownloadError`, or the
generic exception raised on a nonzero result code), it may report success
while the predicted file does not exist, or it may leave a file of a
given size at the predicted path. -/

/-- Observable outcome of one execution attempt. -/
inductive AttemptOutcome where
  | raisesDownloadError (rateLimited : Bool)
  | raisesOther
  | fileAbsent
  | fileWithSize (size : Nat)
deriving DecidableEq

/-- Overall outcome of the bounded retry loop. -/
inductive FetchResult where
  | success (size : Nat)
  | failure
deriving DecidableEq

/-- An attempt that does not break out of the loop: it raises, reports a
missing file, or produces a zero-byte file (`views.py` line 295-297 treats
0 bytes as a raised exception). -/
def attemptFails : AttemptOutcome → Bool
  | .fileWithSize s => s == 0
  | _ => true

/-- `views.py` lines 278-318: the `for attempt in range(3)` loop over the
listed attempt outcomes.  A non-zero-size file at the predicted path
breaks out (and the post-loop existence re-check at line 317 passes, since
that attempt just left the file there); every failure at the last attempt
re-raises, which the outer handler turns into an error page, so no record
is registered.  `fetchLoop l` is called with `l` of length 3. -/
def fetchLoop : List AttemptOutcome → FetchResult
  | [] => .failure
  | .fileWithSize s :: rest =>
    if s == 0 then (if rest.isEmpty then .failure else fetchLoop rest)
    else .success s
  | .raisesDownloadError _ :: rest => if rest.isEmpty then .failure else fetchLoop rest
  | .raisesOther :: rest => if rest.isEmpty then .failure else fetchLoop rest
  | .fileAbsent :: rest => if rest.isEmpty then .failure else fetchLoop rest

/-- `views.py` lines 320-338: only the success path of the loop reaches
`TemporaryDownload.objects.create`; the registered artifact's backing
file is the one whose size the breaking attempt verified.  `some s` means
a record was created over a file of `s` bytes; `none` means the request
ended on the error page with no record created. -/
def download_video_registered (attempts : List AttemptOutcome) : Option Nat :=
  match fetchLoop attempts with
  | .success s => some s
  | .failure => none

/-! ### The parameter check of `download_video` (`views.py` lines 194-212) -/

/-- Python truthiness test `if not p` for a POST parameter:
`request.POST.get` yields `None` when absent, and the empty string is
also falsy. -/
def isMissingParam : Option String → Bool
  | none => true
  | some s => s == ""

/-- `views.py` lines 198-204: the `missing_params` list, in source order. -/
def missing_params (video_url video_id itag : Option String) : List String :=
  (if isMissingParam video_url then ["video URL"] else []) ++
    (if isMissingParam video_id then ["video ID"] else []) ++
      (if isMissingParam itag then ["stream selection (resolution/quality)"] else [])

/-- `views.py` line 207: the rendered error message. -/
def missingParamsMessage (ps : List String) : String :=
  "Missing required parameters for download: " ++ String.intercalate ", " ps ++
    ". Please go back and select a video quality."

/-- Outcome of the parameter check at the top of `download_video`. -/
inductive ParamCheck where
  | missingParams (msg : String)
  | proceed
deriving DecidableEq

/-- `views.py` lines 194-212: if any parameter is missing the view renders
the error page immediately, before any other side effect; otherwise the
download proceeds. -/
def download_video_paramCheck (video_url video_id itag : Option String) : ParamCheck :=
  let mp := missing_params video_url video_id itag
  if mp.isEmpty then .proceed else .missingParams (missingParamsMessage mp)

/-! ### The format list built by `home` (`views.py` lines 110-157) -/

/-- A raw format dict as delivered by the provider library; every field
read through `f.get(...)` may be absent (`none` is Python `None`). -/
structure RawFormat where
  format_id : Option String
  resolution : Option String
  height : Option Nat
  filesize : Option Nat
  ext : Option String
  fps : Option Nat
  url : Option String
  vcodec : Option String
  acodec : Option String
deriving DecidableEq

/-- Python truthiness of `f.get('height')`: present and nonzero. -/
def heightTruthy : Option Nat → Bool
  | none => false
  | some n => n != 0

/-- Python truthiness of `f.get('resolution')`: present and nonempty. -/
def resTruthy : Option String → Bool
  | none => false
  | some s => s != ""

/-- The value `f.get('resolution') or f.get('height')` stored under the
`resolution` key of the template dict: a string label, an integer height,
or Python `None`. -/
def coalesceRes (resolution : Option String) (height : Option Nat) : Option (String ⊕ Nat) :=
  if resTruthy resolution then resolution.map Sum.inl else height.map Sum.inr

/-- One entry of `streams_for_template` (`views.py` lines 125-135). -/
structure Stream where
  itag : Option String
  resolution : Option (String ⊕ Nat)
  filesize : Nat
  mime_type : Option String
  fps : Option Nat
  url : Option String
  ext : Option String
  vcodec : Option String
  acodec : Option String
deriving DecidableEq

/-- `views.py` line 124: `if f.get('vcodec') != 'none' and f.get('height')`.
Note Python `None != 'none'` is true, so an absent `vcodec` passes. -/
def includeFormat (f : RawFormat) : Bool :=
  (match f.vcodec with
    | some s => s != "none"
    | none => true) && heightTruthy f.height

/-- `views.py` lines 117-135: the template dict built from a raw format
(with `filesize` defaulted to 0 when `None`). -/
def toStream (f : RawFormat) : Stream :=
  { itag := f.format_id
    resolution := coalesceRes f.resolution f.height
    filesize := f.filesize.getD 0
    mime_type := f.ext
    fps := f.fps
    url := f.url
    ext := f.ext
    vcodec := f.vcodec
    acodec := f.acodec }

/-- `views.py` lines 116-136: the unsorted `streams_for_template` list. -/
def streams_for_template (raw : List RawFormat) : List Stream :=
  (raw.filter includeFormat).map toStream

/-- Digit-string parsing: `int(numeric_res_str) if numeric_res_str else 0`
(the empty digit string gives 0; a pure digit string always parses). -/
def digitsToNat (cs : List Char) : Nat :=
  cs.foldl (fun acc c => acc * 10 + (c.toNat - Char.toNat '0')) 0

/-- `views.py` lines 139-148, `get_resolution_sort_key`:
`str(stream.get('resolution') or stream.get('height') or '0')` — the
template dict has no `height` key, so this is the coalesced `resolution`
value if truthy, else `'0'` — then `re.sub(r'\D', '', ...)` strips the
non-digits and the result parses as a natural number (0 when empty). -/
def get_resolution_sort_key (s : Stream) : Nat :=
  let v : String :=
    match s.resolution with
    | some (Sum.inl str) => if str = "" then "0" else str
    | some (Sum.inr n) => if n = 0 then "0" else toString n
    | none => "0"
  digitsToNat (v.toList.filter fun c => c.isDigit)

/-- Python truthiness of the coalesced `resolution` template value: a
known display label/height is a nonempty label or a nonzero height. -/
def resValTruthy : Option (String ⊕ Nat) → Bool
  | none => false
  | some (Sum.inl s) => s != ""
  | some (Sum.inr n) => n != 0

/-- The comparison under which a stable ascending sort is exactly Python's
stable `list.sort(key=get_resolution_sort_key, reverse=True)`. -/
def streamGE (a b : Stream) : Prop :=
  get_resolution_sort_key b ≤ get_resolution_sort_key a

instance : DecidableRel streamGE := fun a b =>
  inferInstanceAs (Decidable (get_resolution_sort_key b ≤ get_resolution_sort_key a))

instance : IsTotal Stream streamGE :=
  ⟨fun a b => (Nat.le_total (get_resolution_sort_key b) (get_resolution_sort_key a)).imp
    (fun h => h) (fun h => h)⟩

instance : IsTrans Stream streamGE :=
  ⟨fun _ _ _ hab hbc => Nat.le_trans hbc hab⟩

/-- `views.py` line 153: the final, displayed stream list —
`streams_for_template.sort(key=get_resolution_sort_key, reverse=True)`,
a stable descending sort, realised by insertion sort under `streamGE`. -/
def home_streams (raw : List RawFormat) : List Stream :=
  List.insertionSort streamGE (streams_for_template raw)

/-! ### URL validation and video-id extraction (`views.py` lines 27-55)

The regexes involved are literal strings, the optional pieces `https?`
and `(www\.)?`, and the character class `[\w-]{11}`; they are embedded as
direct string functions over `List Char`.  Matching is deterministic
here (no backtracking is ever needed: each optional literal starts with a
character that cannot start the following literal). -/

/-- The character class `[\w-]` of the patterns, over the ASCII range
(Python's `\w` additionally matches non-ASCII word characters, which is
irrelevant to the provider's ASCII video ids). -/
def wChar (c : Char) : Bool :=
  c.isAlphanum || c == '_' || c == '-'

/-- Match a literal at the head of the input, returning the rest. -/
def litP : List Char → List Char → Option (List Char)
  | [], s => some s
  | _ :: _, [] => none
  | a :: as, b :: bs => if a == b then litP as bs else none

/-- Match an optional literal (`(...)?`) at the head of the input. -/
def optLitP (l s : List Char) : List Char :=
  match litP l s with
  | some r => r
  | none => s

/-- Consume exactly `n` characters of class `[\w-]`. -/
def wTake : Nat → List Char → Option (List Char)
  | 0, s => some s
  | _ + 1, [] => none
  | n + 1, c :: cs => if wChar c then wTake n cs else none

/-- `re.match` for one pattern of `validate_youtube_url`:
`^https?://(www\.)?<mid>[\w-]{11}` (with the `(www\.)?` part only for the
`youtube.com` shapes). -/
def matchShape (www : Bool) (mid : List Char) (s : List Char) : Bool :=
  match litP "http".toList s with
  | none => false
  | some s1 =>
    match litP "://".toList (optLitP "s".toList s1) with
    | none => false
    | some s3 =>
      match litP mid (if www then optLitP "www.".toList s3 else s3) with
      | none => false
      | some s5 => (wTake 11 s5).isSome

/-- `views.py` lines 27-36, `validate_youtube_url`: any of the five
anchored patterns matches a prefix of the input. -/
def validate_youtube_url (s : List Char) : Bool :=
  matchShape true "youtube.com/watch?v=".toList s ||
    matchShape false "youtu.be/".toList s ||
      matchShape true "youtube.com/shorts/".toList s ||
        matchShape true "youtube.com/live/".toList s ||
          matchShape true "youtube.com/embed/".toList s

/-- Python's substring test `p in s`. -/
def isSub : List Char → List Char → Bool
  | p, [] => p.isPrefixOf []
  | p, s@(_ :: t) => p.isPrefixOf s || isSub p t

/-- The capture `([\w-]{11})` at the head of the input:  the first 11
characters, provided there are at least 11 and all are in the class. -/
def capture11 (s : List Char) : Option (List Char) :=
  match wTake 11 s with
  | some _ => some (s.take 11)
  | none => none

/-- `re.search` for a pattern `<pre>([\w-]{11})`: the leftmost position
where the literal is followed by 11 class characters; returns the capture. -/
def searchCap (pre : List Char) : List Char → Option (List Char)
  | [] =>
    match litP pre [] with
    | some rest => capture11 rest
    | none => none
  | c :: t =>
    match litP pre (c :: t) with
    | some rest =>
      match capture11 rest with
      | some v => some v
      | none => searchCap pre t
    | none => searchCap pre t

/-- `views.py` lines 38-55, `extract_video_id`: dispatch on substring
membership, in source order, then search for the shape's capture pattern;
`None` when no branch matches or the branch's search fails. -/
def extract_video_id (s : List Char) : Option (List Char) :=
  if isSub "youtu.be/".toList s then searchCap "youtu.be/".toList s
  else if isSub "youtube.com/watch".toList s then searchCap "v=".toList s
  else if isSub "youtube.com/shorts/".toList s then searchCap "shorts/".toList s
  else if isSub "youtube.com/live/".toList s then searchCap "live/".toList s
  else if isSub "youtube.com/embed/".toList s then searchCap "embed/".toList s
  else none

/-- The SourceResolver error relevant to validation; both the failed
format check and the defensive extraction failure in `home`
(`views.py` lines 66-71) raise `ValueError`, the spec's `InvalidUrl`. -/
inductive ResolveError where
  | invalidUrl
deriving DecidableEq

/-- `views.py` lines 66-71: the validation part of `home` — reject when
`validate_youtube_url` fails, then reject when `extract_video_id` yields
nothing, else continue with the extracted id. -/
def resolveUrl (s : List Char) : Except ResolveError (List Char) :=
  if validate_youtube_url s then
    match extract_video_id s with
    | some vid => .ok vid
    | none => .error .invalidUrl
  else .error .invalidUrl

/-- A canonical watch URL: the shape's fixed prefix followed by an id. -/
def canonWatch (id : List Char) : List Char :=
  "https://www.youtube.com/watch?v=".toList ++ id

/-- A canonical short-link URL. -/
def canonShort (id : List Char) : List Char :=
  "https://youtu.be/".toList ++ id

/-- A canonical shorts URL. -/
def canonShorts (id : List Char) : List Char :=
  "https://www.youtube.com/shorts/".toList ++ id

/-- A canonical live URL. -/
def canonLive (id : List Char) : List Char :=
  "https://www.youtube.com/live/".toList ++ id

/-- A canonical embed URL. -/
def canonEmbed (id : List Char) : List Char :=
  "https://www.youtube.com/embed/".toList ++ id

/-! ## Helper lemmas -/

theorem removeStep_subset (errs : List String) (acc : FS) (d : TemporaryDownload) :
    (if osPathExists acc d.file_path then osRemoveSwallow errs acc d.file_path else acc) ⊆ acc := by
  unfold osRemoveSwallow
  split
  · split
    · exact fun _ h => h
    · exact (List.filter_sublist _).subset
  · exact fun _ h => h

theorem removeExpiredFiles_cons (errs : List String) (d : TemporaryDownload)
    (l : List TemporaryDownload) (fs : FS) :
    removeExpiredFiles errs (d :: l) fs =
      removeExpiredFiles errs l
        (if osPathExists fs d.file_path then osRemoveSwallow errs fs d.file_path else fs) := rfl

theorem not_mem_removeExpiredFiles_of_not_mem (errs : List String) :
    ∀ (l : List TemporaryDownload) (fs : FS) (p : String),
      p ∉ fs → p ∉ removeExpiredFiles errs l fs := by
  intro l
  induction l with
  | nil => intro fs p h; exact h
  | cons d t ih =>
    intro fs p h
    rw [removeExpiredFiles_cons]
    exact ih _ p fun hm => h (removeStep_subset errs fs d hm)

theorem removeExpiredFiles_subset (errs : List String) :
    ∀ (l : List TemporaryDownload) (fs : FS), removeExpiredFiles errs l fs ⊆ fs := by
  intro l
  induction l with
  | nil => intro fs _ h; exact h
  | cons d t ih =>
    intro fs p h
    rw [removeExpiredFiles_cons] at h
    exact removeStep_subset errs fs d (ih _ h)

theorem removeExpiredFiles_not_mem (errs : List String) :
    ∀ (l : List TemporaryDownload) (fs : FS) (d : TemporaryDownload),
      d ∈ l → d.file_path ∉ errs → d.file_path ∉ removeExpiredFiles errs l fs := by
  intro l
  induction l with
  | nil => intro fs d h; exact absurd h (List.not_mem_nil d)
  | cons d0 t ih =>
    intro fs d hmem herr
    rw [removeExpiredFiles_cons]
    rcases List.mem_cons.1 hmem with heq | ht
    · subst heq
      apply not_mem_removeExpiredFiles_of_not_mem
      by_cases hex : osPathExists fs d.file_path = true
      · simp only [hex, if_true, osRemoveSwallow, if_neg herr]
        intro hm
        have := (List.mem_filter.1 hm).2
        simp at this
      · simp only [Bool.not_eq_true] at hex
        simp only [hex, Bool.false_eq_true, if_false]
        simpa [osPathExists] using hex
    · exact ih _ d ht herr

theorem mem_expiredSet (now : Time) (store : List TemporaryDownload) (d : TemporaryDownload) :
    d ∈ expiredSet now store ↔ d ∈ store ∧ d.expires_at ≤ now := by
  simp [expiredSet, List.mem_filter]

theorem expiredSet_length_split (now : Time) :
    ∀ store : List TemporaryDownload,
      (expiredSet now store).length +
        (store.filter fun d => ¬ d.expires_at ≤ now).length = store.length := by
  intro store
  induction store with
  | nil => rfl
  | cons d t ih =>
    simp only [expiredSet, List.filter_cons] at ih ⊢
    by_cases h : d.expires_at ≤ now
    · rw [if_pos (by simpa using h), if_neg (by simp [h])]
      simp only [List.length_cons]
      omega
    · rw [if_neg (by simpa using h), if_pos (by simp [h])]
      simp only [List.length_cons]
      omega

/-! ## C9 — default expiry is creation plus one hour -/

/-- C9: for every artifact created without an explicitly supplied
`expires_at`, the stored `expires_at` equals `created_at + 1` hour
(`models.py` lines 16-19, with `auto_now_add` setting `created_at` at the
same save). -/
theorem C9_default_expiry (now : Time) (m : DownloadMeta) (h : m.expires_at = none) :
    (TemporaryDownload.save now m).expires_at =
      (TemporaryDownload.save now m).created_at + 3600 := by
  simp [TemporaryDownload.save, h]

/-- Witness for C9 at a concrete creation. -/
theorem C9_default_expiry_witness :
    (TemporaryDownload.save 100
      { id := 7, video_url := "https://e", video_title := "t", file_path := "/m/f.mp4",
        format_type := "video/mp4", expires_at := none }).expires_at =
      (TemporaryDownload.save 100
        { id := 7, video_url := "https://e", video_title := "t", file_path := "/m/f.mp4",
          format_type := "video/mp4", expires_at := none }).created_at + 3600 :=
  C9_default_expiry 100 _ rfl

/-! ## C2 — the sweep removes exactly the expired artifacts and counts them -/

/-- C2: `sweep(now)` — the management command `cleanup_downloads`
(`Command.handle`) and the opportunistic `cleanup_expired_downloads` —
removes from the store exactly the records with `expires_at ≤ now`
(conjuncts 1 and 3), reports the count of records removed (conjuncts 2
and 3), its record deletion is unaffected by which file removals error
(conjunct 4), an expired record's backing file is gone afterwards unless
its removal errored (conjunct 5), and `utils.cleanup_expired_downloads`
performs the same store/filesystem mutation (conjunct 6). -/
theorem C2_sweep_exact (now : Time) (errs : List String)
    (store : List TemporaryDownload) (fs : FS) :
    (∀ d, d ∈ (Command.handle now errs store fs).2.1 ↔ d ∈ store ∧ now < d.expires_at) ∧
    (Command.handle now errs store fs).1 = (expiredSet now store).length ∧
    (Command.handle now errs store fs).1 +
      (Command.handle now errs store fs).2.1.length = store.length ∧
    (∀ errs2 fs2, (Command.handle now errs2 store fs2).2.1 =
      (Command.handle now errs store fs).2.1) ∧
    (∀ d ∈ expiredSet now store, d.file_path ∉ errs →
      d.file_path ∉ (Command.handle now errs store fs).2.2) ∧
    cleanup_expired_downloads now errs store fs =
      ((Command.handle now errs store fs).2.1, (Command.handle now errs store fs).2.2) := by
  refine ⟨?_, rfl, ?_, fun errs2 fs2 => rfl, ?_, rfl⟩
  · intro d
    simp [Command.handle, List.mem_filter, Nat.not_le]
  · exact expiredSet_length_split now store
  · intro d hd herr
    exact removeExpiredFiles_not_mem errs (expiredSet now store) fs d hd herr

/-- Witness for C2 at a concrete store: one expired artifact, one live
one, a file whose removal errors and one whose removal succeeds. -/
theorem C2_sweep_exact_witness :
    let d1 : TemporaryDownload :=
      { id := 1, video_url := "u1", video_title := "t1", created_at := 0,
        file_path := "/m/a.mp4", format_type := "video/mp4", expires_at := 10 }
    let d2 : TemporaryDownload :=
      { id := 2, video_url := "u2", video_title := "t2", created_at := 0,
        file_path := "/m/b.mp4", format_type := "video/mp4", expires_at := 99 }
    (Command.handle 10 [] [d1, d2] ["/m/a.mp4", "/m/b.mp4"]).1 = 1 ∧
      "/m/a.mp4" ∉ (Command.handle 10 [] [d1, d2] ["/m/a.mp4", "/m/b.mp4"]).2.2 := by
  intro d1 d2
  refine ⟨rfl, ?_⟩
  have h := (C2_sweep_exact 10 [] [d1, d2] ["/m/a.mp4", "/m/b.mp4"]).2.2.2.2.1
  exact h d1 (by decide) (by decide)

/-! ## C4 — a zero-byte result is never registered -/

theorem fetchLoop_success_pos :
    ∀ (l : List AttemptOutcome) (s : Nat), fetchLoop l = .success s → 0 < s := by
  intro l
  induction l with
  | nil => intro s h; simp [fetchLoop] at h
  | cons a rest ih =>
    intro s h
    cases a with
    | raisesDownloadError rl =>
      rw [fetchLoop] at h
      split at h
      · exact absurd h (by simp)
      · exact ih s h
    | raisesOther =>
      rw [fetchLoop] at h
      split at h
      · exact absurd h (by simp)
      · exact ih s h
    | fileAbsent =>
      rw [fetchLoop] at h
      split at h
      · exact absurd h (by simp)
      · exact ih s h
    | fileWithSize sz =>
      rw [fetchLoop] at h
      by_cases hz : (sz == 0) = true
      · rw [if_pos hz] at h
        split at h
        · exact absurd h (by simp)
        · exact ih s h
      · rw [if_neg hz] at h
        have hs : sz = s := by simpa using h
        subst hs
        simpa [Nat.pos_iff_ne_zero] using hz

theorem fetchLoop_all_fail :
    ∀ l : List AttemptOutcome, l.all attemptFails = true → fetchLoop l = .failure := by
  intro l
  induction l with
  | nil => intro _; rfl
  | cons a rest ih =>
    intro h
    rw [List.all_cons, Bool.and_eq_true] at h
    cases a with
    | raisesDownloadError rl =>
      rw [fetchLoop]; split
      · rfl
      · exact ih h.2
    | raisesOther =>
      rw [fetchLoop]; split
      · rfl
      · exact ih h.2
    | fileAbsent =>
      rw [fetchLoop]; split
      · rfl
      · exact ih h.2
    | fileWithSize sz =>
      have hz : (sz == 0) = true := h.1
      rw [fetchLoop, if_pos hz]
      split
      · rfl
      · exact ih h.2

/-- C4: no `TemporaryDownload` record is created over a zero-byte file —
whenever `download_video` registers an artifact, the verified size of the
file at the predicted path is positive (conjunct 1); a zero-byte result
(like any raise or missing file) consumes an attempt and the loop retries
with the remaining budget (conjunct 3, `views.py` lines 295-314); and if
every attempt fails — raises, missing file, or zero bytes — the view
surfaces a failure and registers nothing (conjunct 2). -/
theorem C4_no_empty_registration (attempts : List AttemptOutcome) :
    (∀ s, download_video_registered attempts = some s → 0 < s) ∧
    (attempts.all attemptFails = true → download_video_registered attempts = none) ∧
    (∀ a rest, attemptFails a = true →
      fetchLoop (a :: rest) = if rest.isEmpty then .failure else fetchLoop rest) := by
  refine ⟨?_, ?_, ?_⟩
  · intro s h
    rw [download_video_registered] at h
    cases hf : fetchLoop attempts with
    | success sz =>
      rw [hf] at h
      have : sz = s := by simpa using h
      exact this ▸ fetchLoop_success_pos attempts sz hf
    | failure => rw [hf] at h; simp at h
  · intro h
    rw [download_video_registered, fetchLoop_all_fail attempts h]
  · intro a rest h
    cases a with
    | raisesDownloadError rl => rw [fetchLoop]
    | raisesOther => rw [fetchLoop]
    | fileAbsent => rw [fetchLoop]
    | fileWithSize sz =>
      have hz : (sz == 0) = true := h
      rw [fetchLoop, if_pos hz]

/-- Witness for C4: a zero-byte first attempt, a raising second attempt,
and a successful third attempt of 7 bytes register a 7-byte file; three
failing attempts register nothing. -/
theorem C4_no_empty_registration_witness :
    (0 < 7) ∧
      download_video_registered
        [.fileWithSize 0, .raisesDownloadError true, .fileWithSize 0] = none :=
  ⟨(C4_no_empty_registration
      [.fileWithSize 0, .raisesOther, .fileWithSize 7]).1 7 rfl,
    (C4_no_empty_registration
      [.fileWithSize 0, .raisesDownloadError true, .fileWithSize 0]).2.1 rfl⟩

/-! ## C8 — missing fetch parameters are enumerated by name -/

/-- C8: when any of the three required parameters of `download_video` is
absent, the view fails immediately with the missing-parameters message,
and that message enumerates by name exactly the absent parameters; in
particular a request with `video_url` present but `video_id` and `itag`
missing names both "video ID" and "stream selection (resolution/quality)"
(`views.py` lines 194-212). -/
theorem C8_missing_params_enumerated (u v f : Option String)
    (h : (isMissingParam u || isMissingParam v || isMissingParam f) = true) :
    download_video_paramCheck u v f =
      .missingParams (missingParamsMessage (missing_params u v f)) ∧
    (isMissingParam u = true ↔ "video URL" ∈ missing_params u v f) ∧
    (isMissingParam v = true ↔ "video ID" ∈ missing_params u v f) ∧
    (isMissingParam f = true ↔
      "stream selection (resolution/quality)" ∈ missing_params u v f) ∧
    missing_params u none none =
      (if isMissingParam u then ["video URL"] else []) ++
        ["video ID", "stream selection (resolution/quality)"] := by
  cases hu : isMissingParam u <;> cases hv : isMissingParam v <;>
    cases hf : isMissingParam f <;>
      simp_all [download_video_paramCheck, missing_params, isMissingParam]

/-- Witness for C8: url present, video id and stream selection missing. -/
theorem C8_missing_params_enumerated_witness :
    download_video_paramCheck (some "https://youtu.be/x") none none =
      .missingParams (missingParamsMessage
        ["video ID", "stream selection (resolution/quality)"]) ∧
    "video ID" ∈ missing_params (some "https://youtu.be/x") none none ∧
    "stream selection (resolution/quality)" ∈
      missing_params (some "https://youtu.be/x") none none := by
  have h := C8_missing_params_enumerated (some "https://youtu.be/x") none none (by decide)
  refine ⟨?_, h.2.2.1.mp rfl, h.2.2.2.1.mp rfl⟩
  have hm : missing_params (some "https://youtu.be/x") none none =
      ["video ID", "stream selection (resolution/quality)"] := by decide
  rw [h.1, hm]

/-! ## C6 — the format filter -/

/-- C6 counterexample: a raw format with an absent (`None`) video codec
but a known height passes the filter of `home` (because Python
`None != 'none'` is true), so the user-facing list does contain an entry
lacking a non-null video codec, contradicting the claim as stated. -/
theorem C6_null_vcodec_included :
    ∃ s ∈ home_streams [{ format_id := some "22", resolution := none, height := some 720, filesize := none, ext := some "mp4", fps := none, url := none, vcodec := none, acodec := none }], s.vcodec = none := by
  decide

/-- C6 (amended): every entry of the user-facing list comes from a raw
format that passed the filter (conjunct 1), no entry carries the
provider's explicit `'none'` video-codec marker — in particular
audio-only entries, marked `vcodec='none'`, are always excluded — and no
entry lacks a truthy display resolution/height (conjuncts 2 and 3); an
entry with an absent (null) codec field but a known height is, however,
retained (see the counterexample). -/
theorem C6_format_filter (raw : List RawFormat) (s : Stream) :
    (s ∈ home_streams raw ↔ s ∈ (raw.filter includeFormat).map toStream) ∧
    (s ∈ home_streams raw → s.vcodec ≠ some "none") ∧
    (s ∈ home_streams raw → resValTruthy s.resolution = true) := by
  refine ⟨List.mem_insertionSort streamGE, ?_, ?_⟩
  · intro hs
    have hs2 := (List.mem_insertionSort streamGE).1 hs
    simp only [streams_for_template, List.mem_map, List.mem_filter] at hs2
    obtain ⟨f, ⟨_, hinc⟩, rfl⟩ := hs2
    rw [includeFormat, Bool.and_eq_true] at hinc
    cases hv : f.vcodec with
    | none => simp [toStream, hv]
    | some c =>
      have := hinc.1
      rw [hv] at this
      simp only [bne_iff_ne, ne_eq] at this
      simp [toStream, hv, this]
  · intro hs
    have hs2 := (List.mem_insertionSort streamGE).1 hs
    simp only [streams_for_template, List.mem_map, List.mem_filter] at hs2
    obtain ⟨f, ⟨_, hinc⟩, rfl⟩ := hs2
    rw [includeFormat, Bool.and_eq_true] at hinc
    have hh := hinc.2
    cases hht : f.height with
    | none => rw [hht] at hh; simp [heightTruthy] at hh
    | some n =>
      rw [hht] at hh
      simp only [heightTruthy, bne_iff_ne, ne_eq] at hh
      by_cases hr : resTruthy f.resolution = true
      · cases hres : f.resolution with
        | none => rw [hres] at hr; simp [resTruthy] at hr
        | some lbl =>
          rw [hres] at hr
          simp only [resTruthy, bne_iff_ne, ne_eq] at hr
          simp [toStream, coalesceRes, hres, hr, resTruthy, resValTruthy]
      · simp only [Bool.not_eq_true] at hr
        simp [toStream, coalesceRes, hr, hht, resValTruthy, hh]

/-- Witness for C6 at a concrete raw list. -/
theorem C6_format_filter_witness :
    let f : RawFormat := { format_id := some "18", resolution := some "640x360", height := some 360, filesize := some 1000, ext := some "mp4", fps := some 30, url := some "http://cdn", vcodec := some "avc1", acodec := some "mp4a" }
    toStream f ∈ home_streams [f] ∧ (toStream f).vcodec ≠ some "none" := by
  intro f
  have h := C6_format_filter [f] (toStream f)
  have hmem : toStream f ∈ ([f].filter includeFormat).map toStream := by decide
  exact ⟨h.1.2 hmem, h.2.1 (h.1.2 hmem)⟩

/-! ## C7 — descending stable sort by the resolution key -/

theorem filter_key_orderedInsert (k : Nat) (a : Stream) (L : List Stream) :
    (List.orderedInsert streamGE a L).filter
        (fun s => get_resolution_sort_key s == k) =
      if get_resolution_sort_key a == k
      then a :: L.filter (fun s => get_resolution_sort_key s == k)
      else L.filter (fun s => get_resolution_sort_key s == k) := by
  rw [List.orderedInsert_eq_take_drop, List.filter_append, List.filter_cons]
  have htake : (List.takeWhile (fun b => decide ¬streamGE a b) L).filter
      (fun s => get_resolution_sort_key s == k) =
        if get_resolution_sort_key a == k then []
        else (List.takeWhile (fun b => decide ¬streamGE a b) L).filter
          (fun s => get_resolution_sort_key s == k) := by
    by_cases hk : (get_resolution_sort_key a == k) = true
    · rw [if_pos hk, List.filter_eq_nil_iff]
      intro b hb
      have hgt := List.mem_takeWhile_imp hb
      simp only [decide_eq_true_eq, streamGE, Nat.not_le] at hgt
      have hak : get_resolution_sort_key a = k := by simpa using hk
      simp only [beq_iff_eq]
      omega
    · rw [if_neg hk]
  by_cases hk : (get_resolution_sort_key a == k) = true
  · rw [htake, if_pos hk, if_pos hk, if_pos hk, List.nil_append]
    congr 1
    conv_rhs => rw [← List.takeWhile_append_dropWhile
      (fun b => decide ¬streamGE a b) L, List.filter_append]
    rw [htake, if_pos hk, List.nil_append]
  · rw [htake, if_neg hk, if_neg hk, if_neg hk]
    conv_rhs => rw [← List.takeWhile_append_dropWhile
      (fun b => decide ¬streamGE a b) L, List.filter_append]

theorem filter_key_insertionSort (k : Nat) :
    ∀ L : List Stream,
      (List.insertionSort streamGE L).filter (fun s => get_resolution_sort_key s == k) =
        L.filter (fun s => get_resolution_sort_key s == k) := by
  intro L
  induction L with
  | nil => rfl
  | cons a t ih =>
    rw [List.insertionSort, filter_key_orderedInsert, List.filter_cons, ih]

/-- C7: the displayed stream list of `home` is sorted descending by
`get_resolution_sort_key` — the declared resolution label or numeric
height, non-digits stripped, parsed as an integer, absent/unparsable
giving 0 (`views.py` lines 139-153) — it is a permutation of the
unsorted list, and the sort is stable: for every key value, the entries
carrying that key appear in exactly their original provider order. -/
theorem C7_sorted_descending_stable (raw : List RawFormat) (k : Nat) :
    List.Sorted streamGE (home_streams raw) ∧
    (home_streams raw).Perm (streams_for_template raw) ∧
    (home_streams raw).filter (fun s => get_resolution_sort_key s == k) =
      (streams_for_template raw).filter (fun s => get_resolution_sort_key s == k) := by
  exact ⟨List.sorted_insertionSort streamGE (streams_for_template raw),
    List.perm_insertionSort streamGE (streams_for_template raw),
    filter_key_insertionSort k (streams_for_template raw)⟩

/-! ## C1 — retrieval of an expired artifact -/

theorem mem_cleanup_fst (now : Time) (errs : List String)
    (store : List TemporaryDownload) (fs : FS) (d : TemporaryDownload) :
    d ∈ (cleanup_expired_downloads now errs store fs).1 ↔
      d ∈ store ∧ now < d.expires_at := by
  simp [cleanup_expired_downloads, List.mem_filter, Nat.not_le]

theorem download_from_link_eq_notFound (t1 t2 : Time) (errs : List String)
    (store : List TemporaryDownload) (fs : FS) (did : Nat)
    (h : (cleanup_expired_downloads t1 errs store fs).1.find? (fun x => x.id == did) = none) :
    download_from_link t1 t2 errs store fs did =
      (.notFound, (cleanup_expired_downloads t1 errs store fs).1,
        (cleanup_expired_downloads t1 errs store fs).2) := by
  simp only [download_from_link]
  rw [h]

theorem download_from_link_eq_expired (t1 t2 : Time) (errs : List String)
    (store : List TemporaryDownload) (fs : FS) (did : Nat) (d : TemporaryDownload)
    (h : (cleanup_expired_downloads t1 errs store fs).1.find? (fun x => x.id == did) = some d)
    (hexp : d.is_expired t2 = true) :
    download_from_link t1 t2 errs store fs did =
      (.expired, (cleanup_expired_downloads t1 errs store fs).1.filter (fun x => x.id ≠ did),
        if osPathExists (cleanup_expired_downloads t1 errs store fs).2 d.file_path
        then osRemoveSwallow errs (cleanup_expired_downloads t1 errs store fs).2 d.file_path
        else (cleanup_expired_downloads t1 errs store fs).2) := by
  simp only [download_from_link]
  rw [h]
  simp [hexp]

theorem convert_view_eq_notFound (t1 t2 : Time) (errs : List String)
    (store : List TemporaryDownload) (fs : FS) (did : Nat)
    (h : (cleanup_expired_downloads t1 errs store fs).1.find? (fun x => x.id == did) = none) :
    (convert_view t1 t2 errs store fs did).1 = .notFound := by
  simp only [convert_view]
  rw [h]

theorem convert_view_eq_expired (t1 t2 : Time) (errs : List String)
    (store : List TemporaryDownload) (fs : FS) (did : Nat) (d : TemporaryDownload)
    (h : (cleanup_expired_downloads t1 errs store fs).1.find? (fun x => x.id == did) = some d)
    (hexp : d.is_expired t2 = true) :
    (convert_view t1 t2 errs store fs did).1 = .expired := by
  simp only [convert_view]
  rw [h]
  simp [hexp]

theorem download_from_link_notFound_of_absent (t1 t2 : Time) (errs : List String)
    (store : List TemporaryDownload) (fs : FS) (did : Nat)
    (h : ∀ x ∈ store, x.id ≠ did) :
    (download_from_link t1 t2 errs store fs did).1 = .notFound := by
  have hfind : (cleanup_expired_downloads t1 errs store fs).1.find?
      (fun x => x.id == did) = none := by
    refine List.find?_eq_none.2 fun x hx => ?_
    have hxs := ((mem_cleanup_fst t1 errs store fs x).1 hx).1
    simpa using h x hxs
  rw [download_from_link_eq_notFound t1 t2 errs store fs did hfind]

theorem cleanup_find_eq_some (t1 : Time) (errs : List String)
    (store : List TemporaryDownload) (fs : FS) (d : TemporaryDownload)
    (hnodup : (store.map (fun x => x.id)).Nodup)
    (hmem : d ∈ store) (h2 : t1 < d.expires_at) :
    (cleanup_expired_downloads t1 errs store fs).1.find? (fun x => x.id == d.id) = some d := by
  have hd : d ∈ (cleanup_expired_downloads t1 errs store fs).1 :=
    (mem_cleanup_fst t1 errs store fs d).2 ⟨hmem, h2⟩
  cases hf : (cleanup_expired_downloads t1 errs store fs).1.find? (fun x => x.id == d.id) with
  | none =>
    exact absurd (by simp : (d.id == d.id) = true) (List.find?_eq_none.1 hf d hd)
  | some x =>
    have hxmem : x ∈ (cleanup_expired_downloads t1 errs store fs).1 :=
      List.mem_of_find?_eq_some hf
    have hxs : x ∈ store := ((mem_cleanup_fst t1 errs store fs x).1 hxmem).1
    have hbeq := List.find?_some hf
    have hxd : x = d :=
      List.inj_on_of_nodup_map hnodup hxs hmem (by simpa using hbeq)
    rw [hxd]

/-- C1 counterexample: a stored artifact whose `expires_at` (0) is
strictly in the past at retrieval time (5) is reclaimed by the
opportunistic sweep that `download_from_link` runs first, so the retrieve
fails with `NotFound` — not with `Expired` as the claim states. -/
theorem C1_expired_can_yield_notFound :
    let d : TemporaryDownload := { id := 1, video_url := "u", video_title := "t", created_at := 0, file_path := "/m/f.mp4", format_type := "video/mp4", expires_at := 0 }
    d.expires_at < 5 ∧
      (download_from_link 5 5 [] [d] ["/m/f.mp4"] d.id).1 = .notFound ∧
      ¬ (download_from_link 5 5 [] [d] ["/m/f.mp4"] d.id).1 = .expired := by
  intro d
  exact ⟨by decide, by decide, by decide⟩

/-- C1 (amended): retrieving a stored artifact whose `expires_at` is
strictly in the past never returns it as live: the result is `NotFound`
or `Expired` (conjunct 1) — `Expired` exactly when the record survived
the opportunistic pre-sweep, i.e. when the sweep's clock read `t1`
preceded the expiry (conjunct 2) — the database record is deleted
(conjunct 3), the backing file is removed unless its removal errors,
tolerating a missing file (conjunct 4), a subsequent lookup of the same
id fails with `NotFound` (conjunct 5), and `convert_view` classifies the
same way (conjuncts 6 and 7). -/
theorem C1_retrieve_expired_reclaims (t1 t2 : Time) (errs : List String)
    (store : List TemporaryDownload) (fs : FS) (d : TemporaryDownload)
    (hnodup : (store.map (fun x => x.id)).Nodup)
    (hmem : d ∈ store) (hexp : d.expires_at < t2) :
    ((download_from_link t1 t2 errs store fs d.id).1 = .notFound ∨
      (download_from_link t1 t2 errs store fs d.id).1 = .expired) ∧
    ((download_from_link t1 t2 errs store fs d.id).1 = .expired ↔ t1 < d.expires_at) ∧
    (∀ x ∈ (download_from_link t1 t2 errs store fs d.id).2.1, x.id ≠ d.id) ∧
    (d.file_path ∉ errs →
      d.file_path ∉ (download_from_link t1 t2 errs store fs d.id).2.2) ∧
    (∀ u1 u2, (download_from_link u1 u2 errs
        (download_from_link t1 t2 errs store fs d.id).2.1
        (download_from_link t1 t2 errs store fs d.id).2.2 d.id).1 = .notFound) ∧
    ((convert_view t1 t2 errs store fs d.id).1 = .notFound ∨
      (convert_view t1 t2 errs store fs d.id).1 = .expired) ∧
    ((convert_view t1 t2 errs store fs d.id).1 = .expired ↔ t1 < d.expires_at) := by
  by_cases h1 : d.expires_at ≤ t1
  · -- the pre-sweep already reclaimed the record: NotFound
    have hno : ∀ x ∈ (cleanup_expired_downloads t1 errs store fs).1, x.id ≠ d.id := by
      intro x hx hbeq
      obtain ⟨hxs, hxlt⟩ := (mem_cleanup_fst t1 errs store fs x).1 hx
      have hxd : x = d := List.inj_on_of_nodup_map hnodup hxs hmem hbeq
      subst hxd
      exact absurd hxlt (Nat.not_lt.2 h1)
    have hfind : (cleanup_expired_downloads t1 errs store fs).1.find?
        (fun x => x.id == d.id) = none :=
      List.find?_eq_none.2 fun x hx => by simpa using hno x hx
    have heq := download_from_link_eq_notFound t1 t2 errs store fs d.id hfind
    refine ⟨?_, ?_, ?_, ?_, ?_, ?_, ?_⟩
    · left; rw [heq]
    · rw [heq]
      constructor
      · intro habs; simp at habs
      · intro habs; exact absurd habs (Nat.not_lt.2 h1)
    · rw [heq]; exact hno
    · intro herr; rw [heq]
      exact removeExpiredFiles_not_mem errs (expiredSet t1 store) fs d
        ((mem_expiredSet t1 store d).2 ⟨hmem, h1⟩) herr
    · intro u1 u2; rw [heq]
      exact download_from_link_notFound_of_absent u1 u2 errs _ _ d.id hno
    · left; exact convert_view_eq_notFound t1 t2 errs store fs d.id hfind
    · rw [convert_view_eq_notFound t1 t2 errs store fs d.id hfind]
      constructor
      · intro habs; simp at habs
      · intro habs; exact absurd habs (Nat.not_lt.2 h1)
  · have h2 : t1 < d.expires_at := Nat.not_le.1 h1
    have hfind := cleanup_find_eq_some t1 errs store fs d hnodup hmem h2
    have hexp2 : d.is_expired t2 = true := by
      unfold TemporaryDownload.is_expired
      exact decide_eq_true hexp
    have heq := download_from_link_eq_expired t1 t2 errs store fs d.id d hfind hexp2
    have hno : ∀ x ∈ (cleanup_expired_downloads t1 errs store fs).1.filter
        (fun x => x.id ≠ d.id), x.id ≠ d.id := by
      intro x hx
      have hpred := (List.mem_filter.1 hx).2
      simpa using hpred
    refine ⟨?_, ?_, ?_, ?_, ?_, ?_, ?_⟩
    · right; rw [heq]
    · rw [heq]
      exact ⟨fun _ => h2, fun _ => rfl⟩
    · rw [heq]; exact hno
    · intro herr; rw [heq]
      by_cases hex : osPathExists (cleanup_expired_downloads t1 errs store fs).2
          d.file_path = true
      · rw [if_pos hex]
        simp only [osRemoveSwallow, if_neg herr]
        intro hm
        have hpred := (List.mem_filter.1 hm).2
        simp at hpred
      · rw [if_neg hex]
        simpa [osPathExists] using hex
    · intro u1 u2; rw [heq]
      exact download_from_link_notFound_of_absent u1 u2 errs _ _ d.id hno
    · right; exact convert_view_eq_expired t1 t2 errs store fs d.id d hfind hexp2
    · rw [convert_view_eq_expired t1 t2 errs store fs d.id d hfind hexp2]
      exact ⟨fun _ => h2, fun _ => rfl⟩

/-- Witness for C1 at a concrete store: the record survives the sweep at
`t1 = 1`, expires at 3, and the retrieve at `t2 = 5` yields `Expired`. -/
theorem C1_retrieve_expired_reclaims_witness :
    let d : TemporaryDownload := { id := 2, video_url := "u", video_title := "t", created_at := 0, file_path := "/m/g.mp4", format_type := "video/mp4", expires_at := 3 }
    (download_from_link 1 5 [] [d] ["/m/g.mp4"] d.id).1 = .expired := by
  intro d
  have h := C1_retrieve_expired_reclaims 1 5 [] [d] ["/m/g.mp4"] d
    (by decide) (by decide) (by decide)
  exact h.2.1.mpr (by decide)

/-! ## C3 — deletion ordering: file before record -/

/-- C3 counterexample: in the single-record reclaim of
`download_from_link` (`views.py` lines 400-407) the backing file
disappears at trace index 1 while the record disappears only at index 2,
so the record is *not* removed before (or atomically with) the file —
the code removes the file first. -/
theorem C3_record_removed_last :
    let d : TemporaryDownload := { id := 1, video_url := "u", video_title := "t", created_at := 0, file_path := "/m/f.mp4", format_type := "video/mp4", expires_at := 0 }
    ¬ ((expiredReclaimTrace [] [d] ["/m/f.mp4"] d).findIdx (recordGone d.id) ≤
        (expiredReclaimTrace [] [d] ["/m/f.mp4"] d).findIdx (fileGone d.file_path)) := by
  intro d
  decide

/-- C3 (amended): in the artifact-deletion paths the backing *file* is
removed before the durable record — when its removal does not error, the
file is gone no later than the record along the reclaim trace
(conjunct 1) — every intermediate state in which the record is gone also
has the file gone, so a file orphaned of its record never appears on
this trace (conjunct 2), no trace state shows the artifact live — the
only intermediate inconsistency is a record pointing at a vanished file
(conjunct 3) — and the sweep orders likewise: every `cleanupTrace` state
before the final record deletion still carries the full store
(conjunct 4). -/
theorem C3_file_removed_before_record (now : Time) (errs : List String)
    (store : List TemporaryDownload) (fs : FS) (d : TemporaryDownload)
    (hnodup : (store.map (fun x => x.id)).Nodup)
    (hmem : d ∈ store) (hfile : d.file_path ∈ fs) (herr : d.file_path ∉ errs)
    (hexp : d.expires_at < now) :
    ((expiredReclaimTrace errs store fs d).findIdx (fileGone d.file_path) ≤
      (expiredReclaimTrace errs store fs d).findIdx (recordGone d.id)) ∧
    (∀ st ∈ expiredReclaimTrace errs store fs d,
      recordGone d.id st = true → fileGone d.file_path st = true) ∧
    (∀ st ∈ expiredReclaimTrace errs store fs d, ¬ liveInState now d.id st) ∧
    (∀ st ∈ (cleanupTrace now errs store fs).dropLast, st.1 = store) := by
  have hf2 : (if osPathExists fs d.file_path
      then osRemoveSwallow errs fs d.file_path else fs) =
        fs.filter (fun q => q ≠ d.file_path) := by
    rw [if_pos (by simpa [osPathExists] using hfile)]
    unfold osRemoveSwallow
    rw [if_neg herr]
  have htrace : expiredReclaimTrace errs store fs d =
      [(store, fs), (store, fs.filter (fun q => q ≠ d.file_path)),
        (store.filter (fun x => x.id ≠ d.id), fs.filter (fun q => q ≠ d.file_path))] := by
    unfold expiredReclaimTrace
    rw [hf2]
  have hrgAny : ∀ X : FS, recordGone d.id (store, X) = false := by
    intro X
    refine Bool.eq_false_iff.2 fun hall => ?_
    have hfact := List.all_eq_true.1 hall d hmem
    simp at hfact
  have hfgAny : ∀ S : List TemporaryDownload,
      fileGone d.file_path (S, fs.filter (fun q => q ≠ d.file_path)) = true := by
    intro S
    simp [fileGone, List.mem_filter]
  have hfg0 : fileGone d.file_path (store, fs) = false := by
    simp [fileGone, hfile]
  have hrg2 : recordGone d.id
      (store.filter (fun x => x.id ≠ d.id), fs.filter (fun q => q ≠ d.file_path)) = true := by
    rw [recordGone, List.all_eq_true]
    intro x hx
    exact (List.mem_filter.1 hx).2
  refine ⟨?_, ?_, ?_, ?_⟩
  · rw [htrace]
    simp only [List.findIdx_cons, hfg0, hfgAny, hrgAny, hrg2, cond_false, cond_true]
    omega
  · intro st hst
    rw [htrace] at hst
    rcases List.mem_cons.1 hst with rfl | hst
    · intro habs; rw [hrgAny] at habs; exact absurd habs (by simp)
    rcases List.mem_cons.1 hst with rfl | hst
    · intro habs; rw [hrgAny] at habs; exact absurd habs (by simp)
    rcases List.mem_cons.1 hst with rfl | hst
    · intro _; exact hfgAny _
    · exact absurd hst (List.not_mem_nil st)
  · intro st hst hlive
    rw [htrace] at hst
    obtain ⟨x, hxmem, hxid, hxexp, _⟩ := hlive
    have hexp2 : ∀ y : TemporaryDownload, y ∈ store → y.id = d.id →
        y.is_expired now = false → False := by
      intro y hys hyid hyexp
      have hyd : y = d := List.inj_on_of_nodup_map hnodup hys hmem hyid
      subst hyd
      rw [TemporaryDownload.is_expired] at hyexp
      have hdec : decide (now > y.expires_at) = true := decide_eq_true hexp
      rw [hdec] at hyexp
      exact absurd hyexp (by simp)
    rcases List.mem_cons.1 hst with rfl | hst
    · exact hexp2 x hxmem hxid hxexp
    rcases List.mem_cons.1 hst with rfl | hst
    · exact hexp2 x hxmem hxid hxexp
    rcases List.mem_cons.1 hst with rfl | hst
    · have hpred := (List.mem_filter.1 hxmem).2
      rw [hxid] at hpred
      simp at hpred
    · exact absurd hst (List.not_mem_nil st)
  · intro st hst
    simp only [cleanupTrace, List.dropLast_concat, List.mem_map] at hst
    obtain ⟨f, _, rfl⟩ := hst
    rfl

/-- Witness for C3 at a concrete reclaim. -/
theorem C3_file_removed_before_record_witness :
    let d : TemporaryDownload := { id := 3, video_url := "u", video_title := "t", created_at := 0, file_path := "/m/h.mp4", format_type := "video/mp4", expires_at := 4 }
    (expiredReclaimTrace [] [d] ["/m/h.mp4"] d).findIdx (fileGone d.file_path) ≤
      (expiredReclaimTrace [] [d] ["/m/h.mp4"] d).findIdx (recordGone d.id) := by
  intro d
  exact (C3_file_removed_before_record 9 [] [d] ["/m/h.mp4"] d
    (by decide) (by decide) (by decide) (by decide) (by decide)).1

/-! ## C5 / C10 — URL validation and id extraction -/

theorem litP_self_append (l : List Char) : ∀ r : List Char, litP l (l ++ r) = some r := by
  induction l with
  | nil => intro r; rfl
  | cons a as ih => intro r; simp [litP, ih]

theorem litP_append_none : ∀ (l u b : List Char), l.length ≤ u.length →
    litP l u = none → litP l (u ++ b) = none := by
  intro l
  induction l with
  | nil => intro u b _ h; simp [litP] at h
  | cons a as ih =>
    intro u b hlen h
    cases u with
    | nil => simp at hlen
    | cons c cs =>
      rw [List.cons_append]
      rw [litP] at h ⊢
      split at h
      next hac =>
        rw [if_pos hac]
        exact ih cs b (by simpa using hlen) h
      next hac =>
        rw [if_neg hac]

theorem wTake_append : ∀ (id r : List Char), id.all wChar = true →
    wTake id.length (id ++ r) = some r := by
  intro id
  induction id with
  | nil => intro r _; rfl
  | cons c cs ih =>
    intro r h
    rw [List.all_cons, Bool.and_eq_true] at h
    simp only [List.length_cons, List.cons_append]
    rw [wTake, if_pos h.1]
    exact ih r h.2

theorem wTake_sound : ∀ (n : Nat) (s r : List Char), wTake n s = some r →
    (s.take n).length = n ∧ (s.take n).all wChar = true ∧ s = s.take n ++ r := by
  intro n
  induction n with
  | zero =>
    intro s r h
    rw [wTake] at h
    cases h
    simp
  | succ m ih =>
    intro s r h
    cases s with
    | nil => rw [wTake] at h; exact absurd h (by simp)
    | cons c cs =>
      rw [wTake] at h
      split at h
      next hc =>
        obtain ⟨h1, h2, h3⟩ := ih cs r h
        rw [List.take_succ_cons]
        refine ⟨by simp [h1], by simp [hc, h2], ?_⟩
        rw [List.cons_append, ← h3]
      next hc => exact absurd h (by simp)

theorem capture11_sound (s v : List Char) (h : capture11 s = some v) :
    v.length = 11 ∧ v.all wChar = true := by
  cases hw : wTake 11 s with
  | none => rw [capture11, hw] at h; exact absurd h (by simp)
  | some r =>
    rw [capture11, hw] at h
    obtain ⟨h1, h2, _⟩ := wTake_sound 11 s r hw
    cases h
    exact ⟨h1, h2⟩

theorem capture11_exact (id : List Char) (h : id.length = 11) (hw : id.all wChar = true) :
    capture11 id = some id := by
  have hwt : wTake 11 id = some [] := by
    have happ := wTake_append id [] hw
    rw [List.append_nil, h] at happ
    exact happ
  rw [capture11, hwt, ← h, List.take_length]

theorem searchCap_sound (pre : List Char) :
    ∀ (s v : List Char), searchCap pre s = some v →
      v.length = 11 ∧ v.all wChar = true := by
  intro s
  induction s with
  | nil =>
    intro v h
    rw [searchCap] at h
    cases hl : litP pre [] with
    | none => rw [hl] at h; exact absurd h (by simp)
    | some rest => rw [hl] at h; exact capture11_sound rest v h
  | cons c t ih =>
    intro v h
    rw [searchCap] at h
    cases hl : litP pre (c :: t) with
    | none => rw [hl] at h; exact ih v h
    | some rest =>
      rw [hl] at h
      have h2 : (match capture11 rest with
          | some w => some w
          | none => searchCap pre t) = some v := h
      cases hc : capture11 rest with
      | none => rw [hc] at h2; exact ih v h2
      | some w =>
        rw [hc] at h2
        cases h2
        exact capture11_sound rest _ hc

theorem searchCap_canon (pre : List Char) :
    ∀ (a id : List Char), pre ≠ [] →
      (∀ i, i < a.length → litP pre ((a ++ pre).drop i) = none) →
      id.length = 11 → id.all wChar = true →
      searchCap pre (a ++ (pre ++ id)) = some id := by
  intro a
  induction a with
  | nil =>
    intro id hpre hskip h11 hw
    rw [List.nil_append]
    cases pre with
    | nil => exact absurd rfl hpre
    | cons c p' =>
      rw [List.cons_append, searchCap]
      have hl : litP (c :: p') (c :: (p' ++ id)) = some id := by
        have hself := litP_self_append (c :: p') id
        rw [List.cons_append] at hself
        exact hself
      rw [hl]
      show (match capture11 id with
        | some w => some w
        | none => searchCap (c :: p') (p' ++ id)) = some id
      rw [capture11_exact id h11 hw]
  | cons x a' ih =>
    intro id hpre hskip h11 hw
    have hl0 : litP pre (((x :: a') ++ pre) ++ id) = none := by
      apply litP_append_none
      · simp only [List.length_append, List.length_cons]
        omega
      · simpa using hskip 0 (by simp)
    have hre : ((x :: a') ++ pre) ++ id = x :: (a' ++ (pre ++ id)) := by
      simp
    rw [hre] at hl0
    rw [List.cons_append, searchCap, hl0]
    refine ih id hpre (fun i hi => ?_) h11 hw
    have hstep := hskip (i + 1) (by simpa using Nat.succ_lt_succ hi)
    simpa using hstep

theorem isSub_eq_true_iff (p : List Char) : ∀ s : List Char, isSub p s = true ↔ p <:+: s := by
  intro s
  induction s with
  | nil =>
    rw [isSub]
    constructor
    · intro h; exact ( List.isPrefixOf_iff_prefix.1 h).isInfix
    · intro h
      have hnil : p = [] := List.infix_nil.1 h
      subst hnil
      rfl
  | cons c t ih =>
    rw [isSub, Bool.or_eq_true, ih, List.isPrefixOf_iff_prefix, List.infix_cons_iff]

theorem isSub_append_left (p a b : List Char) (h : isSub p a = true) :
    isSub p (a ++ b) = true :=
  (isSub_eq_true_iff p (a ++ b)).2
    (((isSub_eq_true_iff p a).1 h).trans ⟨[], b, by simp⟩)

theorem infix_append_cases {p a b : List Char} (h : p <:+: a ++ b) :
    p <:+: a ∨ ∃ j, j < p.length ∧ (p.take j) <:+ a ∧ (p.drop j) <:+: b := by
  by_cases hp : p = []
  · subst hp; left; exact List.nil_infix
  obtain ⟨u, v, huv⟩ := h
  have h1 : a ++ b = u ++ (p ++ v) := by rw [← huv, List.append_assoc]
  rcases List.append_eq_append_iff.1 h1 with ⟨w, hw1, hw2⟩ | ⟨w, hw1, hw2⟩
  · right
    refine ⟨0, List.length_pos.2 hp, by simp, ?_⟩
    rw [List.drop_zero]
    exact ⟨w, v, by rw [hw2, List.append_assoc]⟩
  · rcases List.append_eq_append_iff.1 hw2 with ⟨q, hq1, hq2⟩ | ⟨q, hq1, hq2⟩
    · left
      exact ⟨u, q, by rw [hw1, hq1, List.append_assoc]⟩
    · by_cases hq : q = []
      · subst hq
        rw [List.append_nil] at hq1
        left
        exact ⟨u, [], by rw [List.append_nil, hw1, hq1]⟩
      · right
        refine ⟨w.length, ?_, ?_, ?_⟩
        · rw [hq1, List.length_append]
          have hpos : 0 < q.length := List.length_pos.2 hq
          omega
        · rw [hq1, List.take_left]
          exact ⟨u, hw1.symm⟩
        · rw [hq1, List.drop_left]
          exact ⟨[], v, by rw [List.nil_append, hq2]⟩

theorem isSub_append_wsuffix (p a b : List Char)
    (hb : b.all wChar = true) (ha : isSub p a = false)
    (hstr : ∀ j, j < p.length →
      ¬ ((p.take j).isSuffixOf a = true ∧ (p.drop j).all wChar = true)) :
    isSub p (a ++ b) = false := by
  by_contra h
  rw [Bool.not_eq_false] at h
  rcases infix_append_cases ((isSub_eq_true_iff p (a ++ b)).1 h) with hinf | ⟨j, hj, hsuf, hinf⟩
  · rw [(isSub_eq_true_iff p a).2 hinf] at ha
    exact absurd ha (by simp)
  · refine hstr j hj ⟨List.isSuffixOf_iff_suffix.2 hsuf, ?_⟩
    rw [List.all_eq_true]
    intro c hc
    exact List.all_eq_true.1 hb c (hinf.subset hc)

theorem matchShape_canon (www : Bool) (mid id : List Char)
    (h11 : id.length = 11) (hw : id.all wChar = true) :
    matchShape www mid
      ("http".toList ++ ("s".toList ++ ("://".toList ++
        ((if www then "www.".toList else []) ++ (mid ++ id))))) = true := by
  have hwt : (wTake 11 id).isSome = true := by
    have happ := wTake_append id [] hw
    rw [List.append_nil, h11] at happ
    rw [happ]
    rfl
  cases www with
  | false =>
    simp only [Bool.false_eq_true, if_false, List.nil_append]
    simp only [matchShape, optLitP, litP_self_append, Bool.false_eq_true, if_false]
    exact hwt
  | true =>
    simp only [if_true]
    simp only [matchShape, optLitP, litP_self_append, eq_self_iff_true, if_true]
    exact hwt

theorem validate_canonWatch (id : List Char) (h11 : id.length = 11)
    (hw : id.all wChar = true) : validate_youtube_url (canonWatch id) = true := by
  have hsplit : canonWatch id =
      "http".toList ++ ("s".toList ++ ("://".toList ++
        ((if true then "www.".toList else []) ++ ("youtube.com/watch?v=".toList ++ id)))) := by
    show "https://www.youtube.com/watch?v=".toList ++ id = _
    rw [show "https://www.youtube.com/watch?v=".toList =
      "http".toList ++ ("s".toList ++ ("://".toList ++
        ("www.".toList ++ "youtube.com/watch?v=".toList))) by decide]
    simp [List.append_assoc]
  rw [validate_youtube_url, hsplit, matchShape_canon true _ id h11 hw]
  simp

theorem validate_canonShort (id : List Char) (h11 : id.length = 11)
    (hw : id.all wChar = true) : validate_youtube_url (canonShort id) = true := by
  have hsplit : canonShort id =
      "http".toList ++ ("s".toList ++ ("://".toList ++
        ((if false then "www.".toList else []) ++ ("youtu.be/".toList ++ id)))) := by
    show "https://youtu.be/".toList ++ id = _
    rw [show "https://youtu.be/".toList =
      "http".toList ++ ("s".toList ++ ("://".toList ++ "youtu.be/".toList)) by decide]
    simp [List.append_assoc]
  rw [validate_youtube_url, hsplit, matchShape_canon false _ id h11 hw]
  simp

theorem validate_canonShorts (id : List Char) (h11 : id.length = 11)
    (hw : id.all wChar = true) : validate_youtube_url (canonShorts id) = true := by
  have hsplit : canonShorts id =
      "http".toList ++ ("s".toList ++ ("://".toList ++
        ((if true then "www.".toList else []) ++ ("youtube.com/shorts/".toList ++ id)))) := by
    show "https://www.youtube.com/shorts/".toList ++ id = _
    rw [show "https://www.youtube.com/shorts/".toList =
      "http".toList ++ ("s".toList ++ ("://".toList ++
        ("www.".toList ++ "youtube.com/shorts/".toList))) by decide]
    simp [List.append_assoc]
  rw [validate_youtube_url, hsplit, matchShape_canon true _ id h11 hw]
  simp

theorem validate_canonLive (id : List Char) (h11 : id.length = 11)
    (hw : id.all wChar = true) : validate_youtube_url (canonLive id) = true := by
  have hsplit : canonLive id =
      "http".toList ++ ("s".toList ++ ("://".toList ++
        ((if true then "www.".toList else []) ++ ("youtube.com/live/".toList ++ id)))) := by
    show "https://www.youtube.com/live/".toList ++ id = _
    rw [show "https://www.youtube.com/live/".toList =
      "http".toList ++ ("s".toList ++ ("://".toList ++
        ("www.".toList ++ "youtube.com/live/".toList))) by decide]
    simp [List.append_assoc]
  rw [validate_youtube_url, hsplit, matchShape_canon true _ id h11 hw]
  simp

theorem validate_canonEmbed (id : List Char) (h11 : id.length = 11)
    (hw : id.all wChar = true) : validate_youtube_url (canonEmbed id) = true := by
  have hsplit : canonEmbed id =
      "http".toList ++ ("s".toList ++ ("://".toList ++
        ((if true then "www.".toList else []) ++ ("youtube.com/embed/".toList ++ id)))) := by
    show "https://www.youtube.com/embed/".toList ++ id = _
    rw [show "https://www.youtube.com/embed/".toList =
      "http".toList ++ ("s".toList ++ ("://".toList ++
        ("www.".toList ++ "youtube.com/embed/".toList))) by decide]
    simp [List.append_assoc]
  rw [validate_youtube_url, hsplit, matchShape_canon true _ id h11 hw]
  simp

theorem extract_canonWatch (id : List Char) (h11 : id.length = 11)
    (hw : id.all wChar = true) : extract_video_id (canonWatch id) = some id := by
  have h1 : isSub "youtu.be/".toList (canonWatch id) = false := by
    show isSub "youtu.be/".toList ("https://www.youtube.com/watch?v=".toList ++ id) = false
    exact isSub_append_wsuffix _ _ _ hw (by decide) (by decide)
  have h2 : isSub "youtube.com/watch".toList (canonWatch id) = true := by
    show isSub "youtube.com/watch".toList ("https://www.youtube.com/watch?v=".toList ++ id) = true
    exact isSub_append_left _ _ _ (by decide)
  have h3 : searchCap "v=".toList (canonWatch id) = some id := by
    have hre : canonWatch id =
        "https://www.youtube.com/watch?".toList ++ ("v=".toList ++ id) := by
      show "https://www.youtube.com/watch?v=".toList ++ id = _
      rw [show "https://www.youtube.com/watch?v=".toList =
        "https://www.youtube.com/watch?".toList ++ "v=".toList by decide, List.append_assoc]
    rw [hre]
    exact searchCap_canon _ _ _ (by decide) (by decide) h11 hw
  rw [extract_video_id, if_neg (show ¬ isSub "youtu.be/".toList (canonWatch id) = true by intro hc; rw [h1] at hc; exact Bool.false_ne_true hc), if_pos h2]
  exact h3

theorem extract_canonShort (id : List Char) (h11 : id.length = 11)
    (hw : id.all wChar = true) : extract_video_id (canonShort id) = some id := by
  have h1 : isSub "youtu.be/".toList (canonShort id) = true := by
    show isSub "youtu.be/".toList ("https://youtu.be/".toList ++ id) = true
    exact isSub_append_left _ _ _ (by decide)
  have h2 : searchCap "youtu.be/".toList (canonShort id) = some id := by
    have hre : canonShort id = "https://".toList ++ ("youtu.be/".toList ++ id) := by
      show "https://youtu.be/".toList ++ id = _
      rw [show "https://youtu.be/".toList =
        "https://".toList ++ "youtu.be/".toList by decide, List.append_assoc]
    rw [hre]
    exact searchCap_canon _ _ _ (by decide) (by decide) h11 hw
  rw [extract_video_id, if_pos h1]
  exact h2

theorem extract_canonShorts (id : List Char) (h11 : id.length = 11)
    (hw : id.all wChar = true) : extract_video_id (canonShorts id) = some id := by
  have h1 : isSub "youtu.be/".toList (canonShorts id) = false := by
    show isSub "youtu.be/".toList ("https://www.youtube.com/shorts/".toList ++ id) = false
    exact isSub_append_wsuffix _ _ _ hw (by decide) (by decide)
  have h2 : isSub "youtube.com/watch".toList (canonShorts id) = false := by
    show isSub "youtube.com/watch".toList ("https://www.youtube.com/shorts/".toList ++ id) = false
    exact isSub_append_wsuffix _ _ _ hw (by decide) (by decide)
  have h3 : isSub "youtube.com/shorts/".toList (canonShorts id) = true := by
    show isSub "youtube.com/shorts/".toList ("https://www.youtube.com/shorts/".toList ++ id) = true
    exact isSub_append_left _ _ _ (by decide)
  have h4 : searchCap "shorts/".toList (canonShorts id) = some id := by
    have hre : canonShorts id =
        "https://www.youtube.com/".toList ++ ("shorts/".toList ++ id) := by
      show "https://www.youtube.com/shorts/".toList ++ id = _
      rw [show "https://www.youtube.com/shorts/".toList =
        "https://www.youtube.com/".toList ++ "shorts/".toList by decide, List.append_assoc]
    rw [hre]
    exact searchCap_canon _ _ _ (by decide) (by decide) h11 hw
  rw [extract_video_id,
    if_neg (show ¬ isSub "youtu.be/".toList (canonShorts id) = true by intro hc; rw [h1] at hc; exact Bool.false_ne_true hc),
    if_neg (show ¬ isSub "youtube.com/watch".toList (canonShorts id) = true by intro hc; rw [h2] at hc; exact Bool.false_ne_true hc),
    if_pos h3]
  exact h4

theorem extract_canonLive (id : List Char) (h11 : id.length = 11)
    (hw : id.all wChar = true) : extract_video_id (canonLive id) = some id := by
  have h1 : isSub "youtu.be/".toList (canonLive id) = false := by
    show isSub "youtu.be/".toList ("https://www.youtube.com/live/".toList ++ id) = false
    exact isSub_append_wsuffix _ _ _ hw (by decide) (by decide)
  have h2 : isSub "youtube.com/watch".toList (canonLive id) = false := by
    show isSub "youtube.com/watch".toList ("https://www.youtube.com/live/".toList ++ id) = false
    exact isSub_append_wsuffix _ _ _ hw (by decide) (by decide)
  have h3 : isSub "youtube.com/shorts/".toList (canonLive id) = false := by
    show isSub "youtube.com/shorts/".toList ("https://www.youtube.com/live/".toList ++ id) = false
    exact isSub_append_wsuffix _ _ _ hw (by decide) (by decide)
  have h4 : isSub "youtube.com/live/".toList (canonLive id) = true := by
    show isSub "youtube.com/live/".toList ("https://www.youtube.com/live/".toList ++ id) = true
    exact isSub_append_left _ _ _ (by decide)
  have h5 : searchCap "live/".toList (canonLive id) = some id := by
    have hre : canonLive id =
        "https://www.youtube.com/".toList ++ ("live/".toList ++ id) := by
      show "https://www.youtube.com/live/".toList ++ id = _
      rw [show "https://www.youtube.com/live/".toList =
        "https://www.youtube.com/".toList ++ "live/".toList by decide, List.append_assoc]
    rw [hre]
    exact searchCap_canon _ _ _ (by decide) (by decide) h11 hw
  rw [extract_video_id,
    if_neg (show ¬ isSub "youtu.be/".toList (canonLive id) = true by intro hc; rw [h1] at hc; exact Bool.false_ne_true hc),
    if_neg (show ¬ isSub "youtube.com/watch".toList (canonLive id) = true by intro hc; rw [h2] at hc; exact Bool.false_ne_true hc),
    if_neg (show ¬ isSub "youtube.com/shorts/".toList (canonLive id) = true by intro hc; rw [h3] at hc; exact Bool.false_ne_true hc),
    if_pos h4]
  exact h5

theorem extract_canonEmbed (id : List Char) (h11 : id.length = 11)
    (hw : id.all wChar = true) : extract_video_id (canonEmbed id) = some id := by
  have h1 : isSub "youtu.be/".toList (canonEmbed id) = false := by
    show isSub "youtu.be/".toList ("https://www.youtube.com/embed/".toList ++ id) = false
    exact isSub_append_wsuffix _ _ _ hw (by decide) (by decide)
  have h2 : isSub "youtube.com/watch".toList (canonEmbed id) = false := by
    show isSub "youtube.com/watch".toList ("https://www.youtube.com/embed/".toList ++ id) = false
    exact isSub_append_wsuffix _ _ _ hw (by decide) (by decide)
  have h3 : isSub "youtube.com/shorts/".toList (canonEmbed id) = false := by
    show isSub "youtube.com/shorts/".toList ("https://www.youtube.com/embed/".toList ++ id) = false
    exact isSub_append_wsuffix _ _ _ hw (by decide) (by decide)
  have h4 : isSub "youtube.com/live/".toList (canonEmbed id) = false := by
    show isSub "youtube.com/live/".toList ("https://www.youtube.com/embed/".toList ++ id) = false
    exact isSub_append_wsuffix _ _ _ hw (by decide) (by decide)
  have h5 : isSub "youtube.com/embed/".toList (canonEmbed id) = true := by
    show isSub "youtube.com/embed/".toList ("https://www.youtube.com/embed/".toList ++ id) = true
    exact isSub_append_left _ _ _ (by decide)
  have h6 : searchCap "embed/".toList (canonEmbed id) = some id := by
    have hre : canonEmbed id =
        "https://www.youtube.com/".toList ++ ("embed/".toList ++ id) := by
      show "https://www.youtube.com/embed/".toList ++ id = _
      rw [show "https://www.youtube.com/embed/".toList =
        "https://www.youtube.com/".toList ++ "embed/".toList by decide, List.append_assoc]
    rw [hre]
    exact searchCap_canon _ _ _ (by decide) (by decide) h11 hw
  rw [extract_video_id,
    if_neg (show ¬ isSub "youtu.be/".toList (canonEmbed id) = true by intro hc; rw [h1] at hc; exact Bool.false_ne_true hc),
    if_neg (show ¬ isSub "youtube.com/watch".toList (canonEmbed id) = true by intro hc; rw [h2] at hc; exact Bool.false_ne_true hc),
    if_neg (show ¬ isSub "youtube.com/shorts/".toList (canonEmbed id) = true by intro hc; rw [h3] at hc; exact Bool.false_ne_true hc),
    if_neg (show ¬ isSub "youtube.com/live/".toList (canonEmbed id) = true by intro hc; rw [h4] at hc; exact Bool.false_ne_true hc),
    if_pos h5]
  exact h6

theorem extract_video_id_sound (s : List Char) :
    ∀ v, extract_video_id s = some v → v.length = 11 ∧ v.all wChar = true := by
  intro v h
  rw [extract_video_id] at h
  by_cases h1 : isSub "youtu.be/".toList s = true
  · rw [if_pos h1] at h; exact searchCap_sound _ _ _ h
  rw [if_neg h1] at h
  by_cases h2 : isSub "youtube.com/watch".toList s = true
  · rw [if_pos h2] at h; exact searchCap_sound _ _ _ h
  rw [if_neg h2] at h
  by_cases h3 : isSub "youtube.com/shorts/".toList s = true
  · rw [if_pos h3] at h; exact searchCap_sound _ _ _ h
  rw [if_neg h3] at h
  by_cases h4 : isSub "youtube.com/live/".toList s = true
  · rw [if_pos h4] at h; exact searchCap_sound _ _ _ h
  rw [if_neg h4] at h
  by_cases h5 : isSub "youtube.com/embed/".toList s = true
  · rw [if_pos h5] at h; exact searchCap_sound _ _ _ h
  rw [if_neg h5] at h
  exact absurd h (by simp)

theorem resolveUrl_canonWatch (id : List Char) (h11 : id.length = 11)
    (hw : id.all wChar = true) : resolveUrl (canonWatch id) = .ok id := by
  rw [resolveUrl, if_pos (validate_canonWatch id h11 hw), extract_canonWatch id h11 hw]

theorem resolveUrl_canonShort (id : List Char) (h11 : id.length = 11)
    (hw : id.all wChar = true) : resolveUrl (canonShort id) = .ok id := by
  rw [resolveUrl, if_pos (validate_canonShort id h11 hw), extract_canonShort id h11 hw]

theorem resolveUrl_canonShorts (id : List Char) (h11 : id.length = 11)
    (hw : id.all wChar = true) : resolveUrl (canonShorts id) = .ok id := by
  rw [resolveUrl, if_pos (validate_canonShorts id h11 hw), extract_canonShorts id h11 hw]

theorem resolveUrl_canonLive (id : List Char) (h11 : id.length = 11)
    (hw : id.all wChar = true) : resolveUrl (canonLive id) = .ok id := by
  rw [resolveUrl, if_pos (validate_canonLive id h11 hw), extract_canonLive id h11 hw]

theorem resolveUrl_canonEmbed (id : List Char) (h11 : id.length = 11)
    (hw : id.all wChar = true) : resolveUrl (canonEmbed id) = .ok id := by
  rw [resolveUrl, if_pos (validate_canonEmbed id h11 hw), extract_canonEmbed id h11 hw]

/-- C5 counterexample: this string matches the known watch shape (so
`validate_youtube_url` accepts it), yet `resolveUrl` does *not* extract
its videoId — the extraction dispatch sees the `youtu.be/` marker in the
query string, its search finds no 11-character id after that marker, and
the request fails — refuting "for every string matching a known shape,
resolve extracts the correct videoId". -/
theorem C5_validated_but_extraction_fails :
    validate_youtube_url "https://www.youtube.com/watch?v=ABCDEFGHIJK&u=youtu.be/q".toList
        = true ∧
    resolveUrl "https://www.youtube.com/watch?v=ABCDEFGHIJK&u=youtu.be/q".toList =
      .error .invalidUrl := ⟨by decide, rfl⟩

/-- C5 (amended): for every string not matching a known shape, `resolve`
fails with `InvalidUrl` (conjunct 1); every videoId that `resolve` does
extract consists of exactly 11 word characters (conjunct 2); and on every
canonical instance of the five known shapes — the shape's prefix followed
by an 11-word-character id — `resolve` extracts exactly that id
(conjunct 3).  A validated string that additionally embeds another
shape's dispatch marker may instead fail extraction (see the
counterexample). -/
theorem C5_resolve_shapes (s id : List Char) :
    (validate_youtube_url s = false → resolveUrl s = .error .invalidUrl) ∧
    (∀ v, resolveUrl s = .ok v → v.length = 11 ∧ v.all wChar = true) ∧
    (id.length = 11 → id.all wChar = true →
      resolveUrl (canonWatch id) = .ok id ∧ resolveUrl (canonShort id) = .ok id ∧
      resolveUrl (canonShorts id) = .ok id ∧ resolveUrl (canonLive id) = .ok id ∧
      resolveUrl (canonEmbed id) = .ok id) := by
  refine ⟨?_, ?_, ?_⟩
  · intro h
    rw [resolveUrl, if_neg (by intro hc; rw [h] at hc; exact Bool.false_ne_true hc)]
  · intro v h
    rw [resolveUrl] at h
    by_cases hv : validate_youtube_url s = true
    · rw [if_pos hv] at h
      cases he : extract_video_id s with
      | none => rw [he] at h; exact absurd h (by simp)
      | some w =>
        rw [he] at h
        cases h
        exact extract_video_id_sound s _ he
    · rw [if_neg hv] at h
      exact absurd h (by simp)
  · intro h11 hw
    exact ⟨resolveUrl_canonWatch id h11 hw, resolveUrl_canonShort id h11 hw,
      resolveUrl_canonShorts id h11 hw, resolveUrl_canonLive id h11 hw,
      resolveUrl_canonEmbed id h11 hw⟩

/-- Witness for C5: a concrete canonical watch URL resolves to its id,
and a concrete non-matching string is rejected. -/
theorem C5_resolve_shapes_witness :
    resolveUrl (canonWatch "abcdefghijk".toList) = .ok "abcdefghijk".toList ∧
    resolveUrl "ftp://example.com/file".toList = .error .invalidUrl :=
  ⟨((C5_resolve_shapes "x".toList "abcdefghijk".toList).2.2
      (by decide) (by decide)).1,
    (C5_resolve_shapes "ftp://example.com/file".toList "abcdefghijk".toList).1 (by decide)⟩

/-- C10 counterexample: a URL accepted by `validate_youtube_url` on which
`extract_video_id` returns `None` — the defensive "Could not extract
video ID from URL" branch of `home` is reachable. -/
theorem C10_defensive_branch_reachable :
    validate_youtube_url "https://www.youtube.com/watch?v=abcdefghijk&x=youtu.be/z".toList
        = true ∧
    extract_video_id "https://www.youtube.com/watch?v=abcdefghijk&x=youtu.be/z".toList
        = none := ⟨by decide, by decide⟩

/-- C10 (amended): whenever `extract_video_id` returns a string — on any
input, validated or not — that string consists of exactly 11 word
characters; but the function can return `None` even on URLs accepted by
`validate_youtube_url` (see the counterexample), so the defensive
branch in `home` is reachable. -/
theorem C10_extracted_id_is_eleven_chars (s v : List Char)
    (h : extract_video_id s = some v) : v.length = 11 ∧ v.all wChar = true :=
  extract_video_id_sound s v h

/-- Witness for C10 at a concrete short-link URL. -/
theorem C10_extracted_id_is_eleven_chars_witness :
    "0123456789_".toList.length = 11 ∧ "0123456789_".toList.all wChar = true :=
  C10_extracted_id_is_eleven_chars "https://youtu.be/0123456789_".toList
    "0123456789_".toList (by decide)

end YtDownloader
